import Mathlib

/-!
Verification of the Blueprint compiler + streaming generation/cache pipeline
of the ArtificialOS `ai-service` (Python), as a shallow embedding in Lean 4.

Each section embeds one source module:
* `src/core/cache.py`      — the LRU/TTL content cache;
* `src/core/streaming.py`  — the token batcher;
* `src/core/json.py`       — the JSON extraction/repair chain;
* `src/core/validate.py`   — the Blueprint validator;
* `src/blueprint/parser.py`— the Blueprint (DSL) compiler;
* `src/agents/ui_generator.py` and `src/grpc_server.py` — the streaming
  generation orchestrator and its rule-based fallback.

Python values are modelled by the `JVal` type, Python dicts by ordered
association lists (insertion order preserved, keys unique), machine floats
used only as timestamps by `Int`, and fallible code by `Except`/`Option`.
-/

set_option autoImplicit false

namespace AOS

/-! ## Content cache — `src/ai-service/src/core/cache.py` (`LRUCache`) -/

/-- Modelled from the spec: `LRUCache._compute_key` hashes the key with
`hash_string` (core/hash.py), a thin wrapper over the external `xxhash`
library, truncated to 16 hex chars; collisions are an accepted trade-off.
The derivation is modelled as the identity encoding, which preserves the
ordering/eviction behaviour the claims are about. -/
def computeKey (key : String) : String := key

/-- Statistics record of `cache.Stats`. -/
structure CacheStats where
  size : Nat
  maxSize : Nat
  hits : Nat
  misses : Nat
  evictions : Nat
deriving Repr, DecidableEq

/-- State of `cache.LRUCache`: `data` models the `OrderedDict` (front =
first-inserted / least recently touched; back = most recent), each entry a
`(cache_key, (value, timestamp))` pair. -/
structure LRUCache (α : Type) where
  maxSize : Nat
  ttlSeconds : Option Int
  data : List (String × α × Int)
  stats : CacheStats
deriving Repr

/-- First entry with the given key, as Python `cache_key in self._cache` /
`self._cache[cache_key]` (dict keys are unique). -/
def lookupEntry {α : Type} (k : String) : List (String × α × Int) → Option (α × Int)
  | [] => none
  | (k', v, ts) :: rest => if k' = k then some (v, ts) else lookupEntry k rest

/-- Removal of the entry with the given key (`del self._cache[cache_key]`);
on a unique-keyed dict this removes at most one entry. -/
def eraseKey {α : Type} (k : String) : List (String × α × Int) → List (String × α × Int)
  | [] => []
  | e :: rest => if e.1 = k then eraseKey k rest else e :: eraseKey k rest

/-- `LRUCache._is_expired`: `time.time() - timestamp >= self.ttl_seconds`,
with `ttl_seconds is None` meaning no expiry. -/
def isExpired (ttl : Option Int) (now ts : Int) : Bool :=
  match ttl with
  | none => false
  | some t => t ≤ now - ts

/-- `LRUCache.get`: expired entries are lazily removed and count as misses; a
valid hit is moved to the back of the order (`move_to_end`) and counted. -/
def LRUCache.get {α : Type} (c : LRUCache α) (key : String) (now : Int) :
    Option α × LRUCache α :=
  let ck := computeKey key
  match lookupEntry ck c.data with
  | some (v, ts) =>
    if isExpired c.ttlSeconds now ts then
      let d := eraseKey ck c.data
      let st := { c.stats with size := d.length, misses := c.stats.misses + 1 }
      (none, { c with data := d, stats := st })
    else
      let d := eraseKey ck c.data ++ [(ck, v, ts)]
      let st := { c.stats with hits := c.stats.hits + 1 }
      (some v, { c with data := d, stats := st })
  | none =>
    let st := { c.stats with misses := c.stats.misses + 1 }
    (none, { c with stats := st })

/-- `LRUCache.set`: delete an existing entry for the key, append the new entry
at the back, then if the size bound is exceeded pop the front item
(`popitem(last=False)`) and count an eviction; finally record the size. -/
def LRUCache.set {α : Type} (c : LRUCache α) (key : String) (v : α) (now : Int) :
    LRUCache α :=
  let ck := computeKey key
  let d2 := eraseKey ck c.data ++ [(ck, v, now)]
  if c.maxSize < d2.length then
    let st := { c.stats with size := d2.tail.length, evictions := c.stats.evictions + 1 }
    { c with data := d2.tail, stats := st }
  else
    let st := { c.stats with size := d2.length }
    { c with data := d2, stats := st }

/-- Well-formedness maintained by the cache: unique keys, size within bound
(`__init__` rejects `max_size <= 0`, and `set` re-establishes the bound). -/
def LRUCache.WF {α : Type} (c : LRUCache α) : Prop :=
  (c.data.map (·.1)).Nodup ∧ c.data.length ≤ c.maxSize

theorem eraseKey_of_not_mem {α : Type} {k : String} {l : List (String × α × Int)}
    (h : k ∉ l.map (·.1)) : eraseKey k l = l := by
  induction l with
  | nil => rfl
  | cons e rest ih =>
    simp only [List.map_cons, List.mem_cons, not_or] at h
    simp only [eraseKey]
    rw [if_neg (fun he => h.1 he.symm), ih h.2]

theorem length_eraseKey_add_one {α : Type} {k : String} {l : List (String × α × Int)}
    (hmem : k ∈ l.map (·.1)) (hnd : (l.map (·.1)).Nodup) :
    (eraseKey k l).length + 1 = l.length := by
  induction l with
  | nil => simp at hmem
  | cons e rest ih =>
    simp only [List.map_cons, List.nodup_cons] at hnd
    simp only [List.map_cons, List.mem_cons] at hmem
    simp only [eraseKey]
    by_cases hk : e.1 = k
    · rw [if_pos hk]
      have hnr : k ∉ rest.map (·.1) := hk ▸ hnd.1
      rw [eraseKey_of_not_mem hnr]
      simp
    · rw [if_neg hk]
      have hmr : k ∈ rest.map (·.1) := by
        rcases hmem with h | h
        · exact absurd h.symm hk
        · exact h
      have := ih hmr hnd.2
      simp only [List.length_cons]
      omega

theorem lookupEntry_eraseKey_ne {α : Type} {j k : String} (hjk : j ≠ k)
    (l : List (String × α × Int)) :
    lookupEntry j (eraseKey k l) = lookupEntry j l := by
  induction l with
  | nil => rfl
  | cons e rest ih =>
    obtain ⟨k', v, ts⟩ := e
    simp only [eraseKey]
    by_cases hk : k' = k
    · rw [if_pos hk, ih]
      have hkj : ¬ k' = j := fun h => hjk (h.symm.trans hk)
      simp only [lookupEntry]
      rw [if_neg hkj]
    · rw [if_neg hk]
      simp only [lookupEntry]
      by_cases hj : k' = j
      · rw [if_pos hj, if_pos hj]
      · rw [if_neg hj, if_neg hj, ih]

theorem lookupEntry_append_singleton_ne {α : Type} {j ck : String} (hj : j ≠ ck)
    (l : List (String × α × Int)) (v : α) (ts : Int) :
    lookupEntry j (l ++ [(ck, v, ts)]) = lookupEntry j l := by
  induction l with
  | nil =>
    simp only [List.nil_append, lookupEntry]
    rw [if_neg (fun h => hj h.symm)]
  | cons e rest ih =>
    obtain ⟨k', v', ts'⟩ := e
    simp only [List.cons_append, lookupEntry]
    by_cases h : k' = j
    · rw [if_pos h, if_pos h]
    · rw [if_neg h, if_neg h]
      exact ih

theorem map_fst_eraseKey {α : Type} (k : String) (l : List (String × α × Int)) :
    (eraseKey k l).map (·.1) = (l.map (·.1)).filter (· != k) := by
  induction l with
  | nil => rfl
  | cons e rest ih =>
    simp only [eraseKey, List.map_cons, List.filter_cons]
    by_cases hk : e.1 = k
    · rw [if_pos hk]
      simp [hk, ih]
    · rw [if_neg hk]
      simp only [List.map_cons]
      have : (e.1 != k) = true := by simp [bne_iff_ne]; exact hk
      simp [this, ih]

/-- Claim C9: setting an existing key replaces only that entry's value and
timestamp, moves it to the back (most-recently-inserted position), evicts
nothing, keeps the entry count, and leaves every other entry — value,
timestamp and relative order — unchanged. -/
theorem cache_set_existing_frame {α : Type} (c : LRUCache α) (key : String)
    (v : α) (now : Int) (hwf : c.WF) (hmem : computeKey key ∈ c.data.map (·.1)) :
    (c.set key v now).data.length = c.data.length ∧
    (c.set key v now).stats.evictions = c.stats.evictions ∧
    (c.set key v now).data.getLast? = some (computeKey key, v, now) ∧
    (∀ j, j ≠ computeKey key →
      lookupEntry j (c.set key v now).data = lookupEntry j c.data) ∧
    (c.set key v now).data.map (·.1) =
      (c.data.map (·.1)).filter (· != computeKey key) ++ [computeKey key] := by
  obtain ⟨hnd, hlen⟩ := hwf
  have hlen1 : (eraseKey (computeKey key) c.data).length + 1 = c.data.length :=
    length_eraseKey_add_one hmem hnd
  have hguard : ¬ (c.maxSize <
      (eraseKey (computeKey key) c.data ++ [(computeKey key, v, now)]).length) := by
    simp only [List.length_append, List.length_singleton]
    omega
  have hset : c.set key v now =
      { c with
        data := eraseKey (computeKey key) c.data ++ [(computeKey key, v, now)],
        stats := { c.stats with
          size := (eraseKey (computeKey key) c.data ++ [(computeKey key, v, now)]).length } } := by
    rw [LRUCache.set]
    simp only [if_neg hguard]
  rw [hset]
  refine ⟨?_, rfl, ?_, ?_, ?_⟩
  · simp only [List.length_append, List.length_singleton]
    omega
  · simp
  · intro j hj
    rw [lookupEntry_append_singleton_ne hj, lookupEntry_eraseKey_ne hj]
  · rw [List.map_append, map_fst_eraseKey]
    rfl

/-- Witness for C9 at a concrete two-entry cache. -/
theorem cache_set_existing_frame_witness :
    ((LRUCache.mk 2 none [("a", 1, 0), ("b", 2, 0)] ⟨2, 2, 0, 0, 0⟩ : LRUCache Nat).WF ∧
      computeKey "a" ∈
        ((LRUCache.mk 2 none [("a", 1, 0), ("b", 2, 0)] ⟨2, 2, 0, 0, 0⟩ : LRUCache Nat)).data.map (·.1)) ∧
    (((LRUCache.mk 2 none [("a", 1, 0), ("b", 2, 0)] ⟨2, 2, 0, 0, 0⟩ : LRUCache Nat)).set "a" 5 7).data.length =
      ((LRUCache.mk 2 none [("a", 1, 0), ("b", 2, 0)] ⟨2, 2, 0, 0, 0⟩ : LRUCache Nat)).data.length ∧
    (((LRUCache.mk 2 none [("a", 1, 0), ("b", 2, 0)] ⟨2, 2, 0, 0, 0⟩ : LRUCache Nat)).set "a" 5 7).stats.evictions =
      ((LRUCache.mk 2 none [("a", 1, 0), ("b", 2, 0)] ⟨2, 2, 0, 0, 0⟩ : LRUCache Nat)).stats.evictions ∧
    (((LRUCache.mk 2 none [("a", 1, 0), ("b", 2, 0)] ⟨2, 2, 0, 0, 0⟩ : LRUCache Nat)).set "a" 5 7).data.getLast? =
      some (computeKey "a", 5, 7) ∧
    (∀ j, j ≠ computeKey "a" →
      lookupEntry j (((LRUCache.mk 2 none [("a", 1, 0), ("b", 2, 0)] ⟨2, 2, 0, 0, 0⟩ : LRUCache Nat)).set "a" 5 7).data =
        lookupEntry j ((LRUCache.mk 2 none [("a", 1, 0), ("b", 2, 0)] ⟨2, 2, 0, 0, 0⟩ : LRUCache Nat)).data) ∧
    (((LRUCache.mk 2 none [("a", 1, 0), ("b", 2, 0)] ⟨2, 2, 0, 0, 0⟩ : LRUCache Nat)).set "a" 5 7).data.map (·.1) =
      (((LRUCache.mk 2 none [("a", 1, 0), ("b", 2, 0)] ⟨2, 2, 0, 0, 0⟩ : LRUCache Nat)).data.map (·.1)).filter (· != computeKey "a") ++
        [computeKey "a"] :=
  ⟨⟨⟨by decide, by decide⟩, by decide⟩,
    cache_set_existing_frame
      (LRUCache.mk 2 none [("a", 1, 0), ("b", 2, 0)] ⟨2, 2, 0, 0, 0⟩) "a" 5 7
      ⟨by decide, by decide⟩ (by decide)⟩

/-- Claim C5 (amended): eviction follows the cache's recency order, not pure
insertion order.  A valid `get` moves the read entry to the back of the order,
and a capacity-exceeding `set` evicts the entry at the front — i.e. the least
recently touched entry, where a successful read counts as a touch.  Eviction
coincides with insertion order only in the absence of intervening reads. -/
theorem cache_eviction_access_order {α : Type} :
    (∀ (c : LRUCache α) (key : String) (now : Int) (v : α) (ts : Int),
      lookupEntry (computeKey key) c.data = some (v, ts) →
      isExpired c.ttlSeconds now ts = false →
      (c.get key now).1 = some v ∧
      (c.get key now).2.data.map (·.1) =
        ((c.data.map (·.1)).filter (· != computeKey key)) ++ [computeKey key]) ∧
    (∀ (c : LRUCache α) (key : String) (v : α) (now : Int),
      computeKey key ∉ c.data.map (·.1) →
      c.data.length = c.maxSize →
      0 < c.maxSize →
      (c.set key v now).data = c.data.tail ++ [(computeKey key, v, now)]) := by
  constructor
  · intro c key now v ts hlook hexp
    constructor
    · simp only [LRUCache.get, hlook, hexp]
      simp
    · simp only [LRUCache.get, hlook, hexp]
      simp only [Bool.false_eq_true, if_false]
      rw [List.map_append, map_fst_eraseKey]
      rfl
  · intro c key v now hnot hfull hpos
    have he : eraseKey (computeKey key) c.data = c.data := eraseKey_of_not_mem hnot
    have hguard : c.maxSize <
        (eraseKey (computeKey key) c.data ++ [(computeKey key, v, now)]).length := by
      rw [he]
      simp only [List.length_append, List.length_singleton]
      omega
    cases hd : c.data with
    | nil =>
      rw [hd] at hfull
      simp only [List.length_nil] at hfull
      omega
    | cons e rest =>
      have hlt : c.maxSize < rest.length + 1 + 1 := by
        rw [hd] at hfull
        simp only [List.length_cons] at hfull
        omega
      rw [hd] at he
      rw [LRUCache.set]
      simp only [hd, he]
      simp [hlt]

/-- Concrete run refuting C5 as stated: capacity 2, insert `a` then `b`, read
`a`, insert `c`. -/
def fifoClaimRun : LRUCache Nat :=
  ((((LRUCache.mk 2 none [] ⟨0, 2, 0, 0, 0⟩).set "a" 1 0).set "b" 2 1).get "a" 2).2.set "c" 3 3

/-- Counterexample to claim C5: in the run of `fifoClaimRun` the capacity is
exceeded once, and the entry evicted is `b` — not the oldest-inserted entry
`a`, which was read in between and survives.  Reads do change which entry is
evicted, refuting insertion-order eviction "regardless of how recently any
entry was read". -/
theorem cache_eviction_insertion_order_counterexample :
    fifoClaimRun.stats.evictions = 1 ∧
    fifoClaimRun.data.map (·.1) = ["a", "c"] ∧
    lookupEntry "b" fifoClaimRun.data = none ∧
    lookupEntry "a" fifoClaimRun.data = some (1, 0) := by
  refine ⟨rfl, rfl, rfl, rfl⟩

/-- Concrete cache used by the C5 witness. -/
def cacheW : LRUCache Nat := ⟨2, none, [("a", 1, 0), ("b", 2, 0)], ⟨2, 2, 0, 0, 0⟩⟩

/-- Witness for C5 (amended) at a concrete full cache. -/
theorem cache_eviction_access_order_witness :
    (lookupEntry (computeKey "a") cacheW.data = some (1, 0) ∧
      isExpired cacheW.ttlSeconds 5 0 = false ∧
      (cacheW.get "a" 5).1 = some 1 ∧
      (cacheW.get "a" 5).2.data.map (·.1) =
        ((cacheW.data.map (·.1)).filter (· != computeKey "a")) ++ [computeKey "a"]) ∧
    (computeKey "c" ∉ cacheW.data.map (·.1) ∧
      cacheW.data.length = cacheW.maxSize ∧
      0 < cacheW.maxSize ∧
      (cacheW.set "c" 9 7).data = cacheW.data.tail ++ [(computeKey "c", 9, 7)]) :=
  ⟨⟨by decide, by decide,
      (cache_eviction_access_order.1 cacheW "a" 5 1 0 (by decide) (by decide)).1,
      (cache_eviction_access_order.1 cacheW "a" 5 1 0 (by decide) (by decide)).2⟩,
    ⟨by decide, by decide, by decide,
      cache_eviction_access_order.2 cacheW "c" 9 7 (by decide) (by decide) (by decide)⟩⟩

/-! ## Token batching — `src/ai-service/src/core/streaming.py` (`TokenBatcher`,
`batch_tokens`) -/

/-- `TokenBatcher.add`: append the token to the buffer; once the buffer holds
at least `batch_size` characters, emit it and reset the buffer. -/
def batcherAdd (batchSize : Nat) (buffer tok : String) : Option String × String :=
  let b := buffer ++ tok
  if batchSize ≤ b.length then (some b, "") else (none, b)

/-- Draining loop of `batch_tokens` / `batch_tokens_sync`: feed every token to
the batcher, yielding each ready batch (`if batch:`), and flush the remaining
buffer at the end (`if self.buffer:`). -/
def batchTokensGo (batchSize : Nat) (buffer : String) : List String → List String
  | [] => if buffer == "" then [] else [buffer]
  | t :: ts =>
    let b := buffer ++ t
    if batchSize ≤ b.length then
      if b == "" then batchTokensGo batchSize "" ts
      else b :: batchTokensGo batchSize "" ts
    else batchTokensGo batchSize b ts

/-- `batch_tokens(stream, batch_size)`: re-chunk a token stream into batches
of at least `batch_size` characters, starting from an empty buffer. -/
def batchTokens (batchSize : Nat) (toks : List String) : List String :=
  batchTokensGo batchSize "" toks

/-- Concatenation of an ordered list of chunks. -/
def concatStrings (l : List String) : String :=
  l.foldr (fun a b => a ++ b) ""

theorem concatStrings_nil : concatStrings [] = "" := rfl

theorem concatStrings_cons (a : String) (l : List String) :
    concatStrings (a :: l) = a ++ concatStrings l := rfl

theorem batchTokensGo_concat (batchSize : Nat) (ts : List String) :
    ∀ buffer, concatStrings (batchTokensGo batchSize buffer ts) =
      buffer ++ concatStrings ts := by
  induction ts with
  | nil =>
    intro buffer
    by_cases h : buffer = ""
    · simp [batchTokensGo, h, concatStrings]
    · simp [batchTokensGo, h, concatStrings]
  | cons t rest ih =>
    intro buffer
    simp only [batchTokensGo]
    by_cases hfull : batchSize ≤ (buffer ++ t).length
    · rw [if_pos hfull]
      by_cases hb : buffer ++ t = ""
      · rw [if_pos (by simp [hb]), ih "", String.empty_append, concatStrings_cons,
          ← String.append_assoc, hb, String.empty_append]
      · rw [if_neg (by simp [hb]), concatStrings_cons, ih "", String.empty_append,
          concatStrings_cons, String.append_assoc]
    · rw [if_neg hfull, ih (buffer ++ t), concatStrings_cons, String.append_assoc]

/-- Claim C8: re-chunking a finite ordered token stream through the token
batcher preserves order and content — the concatenation of the emitted
batches (including the final flushed remainder) equals the concatenation of
the input tokens exactly; nothing is dropped, duplicated or reordered. -/
theorem batch_tokens_concat_exact (batchSize : Nat) (toks : List String) :
    concatStrings (batchTokens batchSize toks) = concatStrings toks := by
  rw [batchTokens, batchTokensGo_concat, String.empty_append]

/-! ## JSON-like values (Python objects produced by JSON parsing) -/

/-- Python/JSON value model.  Numbers are restricted to integers: every
numeric literal appearing in the embedded code and in the claims' inputs is
integral, and floating point is out of scope. -/
inductive JVal where
  | null
  | bool (b : Bool)
  | num (n : Int)
  | str (s : String)
  | arr (xs : List JVal)
  | obj (fields : List (String × JVal))
deriving Repr, Inhabited

/-- Python `dict.get(k)` on an insertion-ordered dict with unique keys. -/
def objGet (fields : List (String × JVal)) (k : String) : Option JVal :=
  match fields with
  | [] => none
  | (k', v) :: rest => if k' = k then some v else objGet rest k

/-- Python `dict.get(k, default)`. -/
def objGetD (fields : List (String × JVal)) (k : String) (d : JVal) : JVal :=
  (objGet fields k).getD d

/-- Python `d[k] = v`: replace in place if the key exists (keeping its
position), else append at the back. -/
def objSet (fields : List (String × JVal)) (k : String) (v : JVal) :
    List (String × JVal) :=
  if fields.any (fun p => p.1 == k) then
    fields.map (fun p => if p.1 == k then (k, v) else p)
  else fields ++ [(k, v)]

/-- Python truthiness of a JSON-like value (`bool(x)`). -/
def pyTruthy : JVal → Bool
  | .null => false
  | .bool b => b
  | .num n => n != 0
  | .str s => s != ""
  | .arr xs => !xs.isEmpty
  | .obj fs => !fs.isEmpty

/-- Python `str.lower()` (adequate for the ASCII requests of this service). -/
def pyLower (s : String) : String := String.mk (s.data.map Char.toLower)

/-- Character-list test that `needle` is a prefix of `hay`. -/
def startsWithL : List Char → List Char → Bool
  | _, [] => true
  | [], _ :: _ => false
  | h :: hs, n :: ns => h == n && startsWithL hs ns

/-- Character-list substring test. -/
def containsSub (needle : List Char) : List Char → Bool
  | [] => startsWithL [] needle
  | h :: rest => startsWithL (h :: rest) needle || containsSub needle rest

/-- Python `needle in hay` on strings. -/
def pyIn (needle hay : String) : Bool := containsSub needle.data hay.data

/-! ## UI specification model — `src/ai-service/src/agents/ui_generator.py`
(`UIComponent`, `UISpec`, `ComponentTemplates`, rule-based generators) -/

/-- Pydantic `UIComponent`: fields `type, id, props, children, on_event`. -/
structure UIComponent where
  type : String
  id : String
  props : List (String × JVal)
  children : List UIComponent
  on_event : Option (List (String × String))
deriving Repr, Inhabited

/-- Pydantic `UISpec`: fields `type, title, layout, components, style,
services, service_bindings, lifecycle_hooks`. -/
structure UISpec where
  type : String
  title : String
  layout : String
  components : List UIComponent
  style : List (String × JVal)
  services : List String
  service_bindings : List (String × String)
  lifecycle_hooks : List (String × List String)
deriving Repr, Inhabited

/-- `ComponentTemplates.button`: `on_event = {"click": on_click} if on_click
else None` (Python truthiness: an empty string also yields `None`). -/
def tmplButton (id text : String) (onClick : Option String) : UIComponent :=
  ⟨"button", id, [("text", .str text)], [],
    match onClick with
    | some c => if c == "" then none else some [("click", c)]
    | none => none⟩

/-- `ComponentTemplates.input`. -/
def tmplInput (id ph value : String) : UIComponent :=
  ⟨"input", id,
    [("placeholder", .str ph), ("value", .str value), ("type", .str "text")],
    [], none⟩

/-- `ComponentTemplates.text`. -/
def tmplText (id content variant : String) : UIComponent :=
  ⟨"text", id, [("content", .str content), ("variant", .str variant)], [], none⟩

/-- `ComponentTemplates.container`. -/
def tmplContainer (id : String) (children : List UIComponent)
    (layout : String) (gap : Int) : UIComponent :=
  ⟨"container", id, [("layout", .str layout), ("gap", .num gap)], children, none⟩

/-- `ComponentTemplates.grid`. -/
def tmplGrid (id : String) (children : List UIComponent)
    (columns gap : Int) : UIComponent :=
  ⟨"grid", id, [("columns", .num columns), ("gap", .num gap)], children, none⟩

/-- Helper to mutate a component's props (`comp.props[k] = v`). -/
def withProp (c : UIComponent) (k : String) (v : JVal) : UIComponent :=
  ⟨c.type, c.id, objSet c.props k v, c.children, c.on_event⟩

/-- `UIGeneratorAgent._generate_calculator`.  The `number_buttons` block of
the source (lines 834–853) computes an intermediate list that the function
then discards — the returned spec is built solely from `display` and the
explicitly listed `button_grid_children`. -/
def calculatorSpec : UISpec :=
  let display :=
    withProp (withProp (tmplInput "display" "" "0") "readonly" (.bool true))
      "style" (.obj [("fontSize", .str "24px"), ("textAlign", .str "right")])
  let clear := tmplButton "btn-clear" "C" (some "calc.clear")
  let equals := tmplButton "btn-equals" "=" (some "calc.evaluate")
  let buttonGridChildren :=
    [tmplButton "btn-7" "7" (some "calc.append_digit"),
     tmplButton "btn-8" "8" (some "calc.append_digit"),
     tmplButton "btn-9" "9" (some "calc.append_digit"),
     tmplButton "btn-divide" "÷" (some "calc.divide"),
     tmplButton "btn-4" "4" (some "calc.append_digit"),
     tmplButton "btn-5" "5" (some "calc.append_digit"),
     tmplButton "btn-6" "6" (some "calc.append_digit"),
     tmplButton "btn-multiply" "×" (some "calc.multiply"),
     tmplButton "btn-1" "1" (some "calc.append_digit"),
     tmplButton "btn-2" "2" (some "calc.append_digit"),
     tmplButton "btn-3" "3" (some "calc.append_digit"),
     tmplButton "btn-subtract" "−" (some "calc.subtract"),
     tmplButton "btn-0" "0" (some "calc.append_digit"),
     clear, equals,
     tmplButton "btn-add" "+" (some "calc.add")]
  let buttonGrid := tmplGrid "button-grid" buttonGridChildren 4 8
  ⟨"app", "Calculator", "vertical", [display, buttonGrid],
    [("padding", .str "20px"), ("maxWidth", .str "300px")], [], [], []⟩

/-- `UIGeneratorAgent._generate_counter`. -/
def counterSpec : UISpec :=
  let countDisplay :=
    withProp (tmplText "count" "0" "h1")
      "style" (.obj [("fontSize", .str "48px"), ("fontWeight", .str "bold")])
  let increment := tmplButton "btn-inc" "Increment" (some "calc.add")
  let decrement := tmplButton "btn-dec" "Decrement" (some "calc.subtract")
  let resetBtn := tmplButton "btn-reset" "Reset" (some "calc.clear")
  let buttons := tmplContainer "buttons" [increment, decrement, resetBtn] "horizontal" 12
  ⟨"app", "Counter", "vertical", [countDisplay, buttons],
    [("padding", .str "40px"), ("textAlign", .str "center")], [], [], []⟩

/-- `UIGeneratorAgent._generate_todo_app`. -/
def todoSpec : UISpec :=
  let header := tmplText "header" "📝 Todo List" "h2"
  let taskInput := tmplInput "task-input" "Enter a new task..." ""
  let addButton := tmplButton "btn-add" "Add Task" (some "ui.add_todo")
  let inputRow := tmplContainer "input-row" [taskInput, addButton] "horizontal" 8
  let todoList := tmplContainer "todo-list" [] "vertical" 8
  ⟨"app", "Todo App", "vertical", [header, inputRow, todoList],
    [("padding", .str "20px"), ("maxWidth", .str "500px")], [], [], []⟩

/-- `UIGeneratorAgent._generate_placeholder`. -/
def placeholderSpec (request : String) : UISpec :=
  let header := tmplText "header" "🎨 Generated App" "h2"
  let message := tmplText "message" ("Request: " ++ request) "body"
  let info := tmplText "info"
    "UI generation for this request is not yet implemented." "caption"
  ⟨"app", "Generated App", "vertical", [header, message, info],
    [("padding", .str "40px")], [], [], []⟩

/-- Category dispatch of the rule-based fallback in
`UIGeneratorAgent.generate_ui_stream` (lines 662–671). -/
def ruleSpec (request : String) : UISpec :=
  let rl := pyLower request
  if pyIn "calculator" rl then calculatorSpec
  else if pyIn "todo" rl || pyIn "task" rl then todoSpec
  else if pyIn "counter" rl then counterSpec
  else placeholderSpec request

/-! ## Streaming orchestration — `UIGeneratorAgent.generate_ui_stream` and
`AIServiceImpl.StreamUI` (`src/ai-service/src/grpc_server.py`) -/

/-- JSON string escaping for the serializer (quote and backslash; control and
non-ASCII escapes of `json.dumps(ensure_ascii=True)` are not modelled — the
claims treat the serialized text as opaque). -/
def jsonEscape (s : String) : String :=
  String.join (s.data.map fun c =>
    if c = '"' then "\\\"" else if c = '\\' then "\\\\" else String.mk [c])

mutual
/-- Compact JSON rendering of a value, with the `", "`/`": "` separators of
Python's `json.dumps` defaults. -/
def renderJ : JVal → String
  | .null => "null"
  | .bool b => cond b "true" "false"
  | .num n => toString n
  | .str s => "\"" ++ jsonEscape s ++ "\""
  | .arr xs => "[" ++ renderArr xs ++ "]"
  | .obj fs => "\x7b" ++ renderObj fs ++ "\x7d"

def renderArr : List JVal → String
  | [] => ""
  | [x] => renderJ x
  | x :: y :: xs => renderJ x ++ ", " ++ renderArr (y :: xs)

def renderObj : List (String × JVal) → String
  | [] => ""
  | [(k, v)] => "\"" ++ jsonEscape k ++ "\": " ++ renderJ v
  | (k, v) :: y :: xs =>
    "\"" ++ jsonEscape k ++ "\": " ++ renderJ v ++ ", " ++ renderObj (y :: xs)
end

mutual
/-- Pydantic `model_dump()` of a `UIComponent`, in declared field order. -/
def uiComponentToJVal : UIComponent → JVal
  | ⟨ty, id, props, children, onEvent⟩ =>
    .obj [("type", .str ty), ("id", .str id), ("props", .obj props),
      ("children", .arr (uiComponentsToJVal children)),
      ("on_event", match onEvent with
        | none => .null
        | some evs => .obj (evs.map fun p => (p.1, .str p.2)))]

/-- `model_dump()` of a list of components. -/
def uiComponentsToJVal : List UIComponent → List JVal
  | [] => []
  | c :: cs => uiComponentToJVal c :: uiComponentsToJVal cs
end

/-- Pydantic `model_dump()` of a `UISpec`, in declared field order. -/
def uiSpecToJVal (u : UISpec) : JVal :=
  .obj [("type", .str u.type), ("title", .str u.title), ("layout", .str u.layout),
    ("components", .arr (uiComponentsToJVal u.components)),
    ("style", .obj u.style),
    ("services", .arr (u.services.map .str)),
    ("service_bindings", .obj (u.service_bindings.map fun p => (p.1, .str p.2))),
    ("lifecycle_hooks", .obj (u.lifecycle_hooks.map fun p =>
      (p.1, .arr (p.2.map .str))))]

/-- `json.dumps(ui_spec.model_dump())`, the single fallback token of
`generate_ui_stream`. -/
def dumpsSpec (u : UISpec) : String := renderJ (uiSpecToJVal u)

/-- Behaviour of one `_generate_with_llm_stream` run: the token strings it
yields before its outcome, and the outcome — either a validated `UISpec`
yielded as the final item, or an exception (upstream failure, empty/invalid
JSON, `UISpec` validation failure), raised after the listed tokens. -/
structure LLMRun where
  chunks : List String
  outcome : Except Unit UISpec

/-- Items yielded by `generate_ui_stream`: JSON token strings, then a final
`UISpec`.  `resetSig` stands for a `{"reset": True}` dict item, the shape the
gRPC server's reset branch tests for with `item.get("reset")`; the generator
never constructs one. -/
inductive StreamItem where
  | tok (s : String)
  | resetSig
  | spec (u : UISpec)

/-- Tail of the rule-based fallback: yield the serialized spec as a single
token, then the spec itself. -/
def ruleItems (request : String) : List StreamItem :=
  [.tok (dumpsSpec (ruleSpec request)), .spec (ruleSpec request)]

/-- `UIGeneratorAgent.generate_ui_stream`: with LLM enabled, re-yield the LLM
stream's items; any exception from it is caught (`except Exception`) after the
already-yielded tokens and control falls through to the rule-based fallback.
No reset item of any kind is yielded on that path. -/
def generate_ui_stream (useLlm : Bool) (llm : LLMRun) (request : String) :
    List StreamItem :=
  if useLlm then
    match llm.outcome with
    | .ok u => llm.chunks.map .tok ++ [.spec u]
    | .error _ => llm.chunks.map .tok ++ ruleItems request
  else ruleItems request

/-- Token types of the `ai_pb2.UIToken` protobuf union.  `reset` is the
explicit reset signal named by the spec's streaming contract. -/
inductive UITokenType where
  | generationStart
  | thought
  | token
  | complete
  | error
  | reset
deriving Repr, DecidableEq

/-- A token sent to the caller (timestamps, which are wall-clock metadata,
are not modelled). -/
structure UIToken where
  type : UITokenType
  content : String
deriving Repr, DecidableEq

/-- Loop body of `StreamUI` over the generator's items: batch string tokens
into `BATCH_SIZE = 20` character chunks; on a reset item emit a fresh
`GENERATION_START` and clear the buffer; on the spec item flush the buffer
and remember the spec.  Returns the emitted tokens, the final buffer and the
last spec seen. -/
def streamUIGo (buffer : String) (specSoFar : Option UISpec) :
    List StreamItem → List UIToken × String × Option UISpec
  | [] => ([], buffer, specSoFar)
  | .resetSig :: rest =>
    let r := streamUIGo "" specSoFar rest
    (⟨.generationStart, "Using rule-based generation..."⟩ :: r.1, r.2)
  | .tok s :: rest =>
    let b := buffer ++ s
    if 20 ≤ b.length then
      let r := streamUIGo "" specSoFar rest
      (⟨.token, b⟩ :: r.1, r.2)
    else
      streamUIGo b specSoFar rest
  | .spec u :: rest =>
    let flushed : List UIToken := if buffer == "" then [] else [⟨.token, buffer⟩]
    let r := streamUIGo "" (some u) rest
    (flushed ++ r.1, r.2)

/-- `AIServiceImpl.StreamUI`: initial `GENERATION_START` and `THOUGHT`, the
batched loop over the generator's items, the final buffer flush, then a
`THOUGHT` with the component count and `COMPLETE`.  If no spec was produced,
reading `ui_spec.components` raises and the outer `except` yields a single
`ERROR` token instead. -/
def streamUI (request : String) (items : List StreamItem) : List UIToken :=
  let start : UIToken := ⟨.generationStart, "Analyzing request..."⟩
  let thought1 : UIToken := ⟨.thought, "Analyzing request: " ++ request⟩
  let r := streamUIGo "" none items
  let flushTail : List UIToken := if r.2.1 == "" then [] else [⟨.token, r.2.1⟩]
  match r.2.2 with
  | some u =>
    [start, thought1] ++ r.1 ++ flushTail ++
      [⟨.thought, "Identified " ++ toString u.components.length ++ " components"⟩,
       ⟨.complete, ""⟩]
  | none => [start, thought1] ++ r.1 ++ flushTail ++ [⟨.error, "exception"⟩]

/-- Whether an item is the reset dict the server's reset branch tests for. -/
def itemIsReset : StreamItem → Bool
  | .resetSig => true
  | _ => false

theorem streamUIGo_all_token (items : List StreamItem) :
    ∀ buffer sp, items.all (fun i => !itemIsReset i) = true →
      (streamUIGo buffer sp items).1.all (fun t => t.type == .token) = true := by
  induction items with
  | nil => intro buffer sp _; rfl
  | cons i rest ih =>
    intro buffer sp h
    simp only [List.all_cons, Bool.and_eq_true] at h
    cases i with
    | resetSig => simp [itemIsReset] at h
    | tok s =>
      simp only [streamUIGo]
      by_cases hl : 20 ≤ (buffer ++ s).length
      · rw [if_pos hl]
        simp only [List.all_cons, Bool.and_eq_true]
        exact ⟨rfl, ih "" sp h.2⟩
      · rw [if_neg hl]
        exact ih (buffer ++ s) sp h.2
    | spec u =>
      simp only [streamUIGo]
      rw [List.all_append]
      refine Bool.and_eq_true _ _ |>.mpr ⟨?_, ih "" (some u) h.2⟩
      by_cases hb : (buffer == "") = true
      · rw [if_pos hb]; rfl
      · rw [if_neg hb]; rfl

theorem streamUIGo_spec_of_last (items : List StreamItem) (u : UISpec) :
    ∀ buffer sp, (streamUIGo buffer sp (items ++ [.spec u])).2.2 = some u := by
  induction items with
  | nil => intro buffer sp; rfl
  | cons i rest ih =>
    intro buffer sp
    cases i with
    | resetSig =>
      simp only [List.cons_append, streamUIGo]
      exact ih "" sp
    | tok s =>
      simp only [List.cons_append, streamUIGo]
      by_cases hl : 20 ≤ (buffer ++ s).length
      · rw [if_pos hl]
        exact ih "" sp
      · rw [if_neg hl]
        exact ih (buffer ++ s) sp
    | spec v =>
      simp only [List.cons_append, streamUIGo]
      exact ih "" (some v)

theorem getLast?_append_pair {α : Type} (l : List α) (x y : α) :
    (l ++ [x, y]).getLast? = some y := by
  rw [show l ++ [x, y] = (l ++ [x]) ++ [y] by simp]
  exact List.getLast?_concat _

theorem countP_eq_zero_of_all_token (l : List UIToken) (ty : UITokenType)
    (hty : ty ≠ .token)
    (h : l.all (fun t => t.type == .token) = true) :
    l.countP (fun t => t.type == ty) = 0 := by
  induction l with
  | nil => rfl
  | cons t rest ih =>
    simp only [List.all_cons, Bool.and_eq_true] at h
    rw [List.countP_cons]
    have ht : t.type = .token := by
      have := h.1
      simpa [beq_iff_eq] using this
    have : (t.type == ty) = false := by
      simp [beq_iff_eq, ht]
      exact fun he => hty he.symm
    rw [this]
    simp [ih h.2]

/-- Claim C6: an upstream LLM failure during generation is never surfaced as a
request-level error — `generate_ui_stream` falls through to the rule-based
path, which is total: for every request the stream's final item is a `UISpec`
with a non-empty components list, and when no recognized category
(calculator, todo/task, counter) matches, it is the generic placeholder. -/
theorem fallback_total_on_upstream_failure (llm : LLMRun) (request : String)
    (hfail : llm.outcome = .error ()) :
    (generate_ui_stream true llm request).getLast? =
      some (.spec (ruleSpec request)) ∧
    (ruleSpec request).components ≠ [] ∧
    (pyIn "calculator" (pyLower request) = false →
      pyIn "todo" (pyLower request) = false →
      pyIn "task" (pyLower request) = false →
      pyIn "counter" (pyLower request) = false →
      ruleSpec request = placeholderSpec request) := by
  refine ⟨?_, ?_, ?_⟩
  · simp only [generate_ui_stream, hfail, if_pos]
    rw [ruleItems, getLast?_append_pair]
  · simp only [ruleSpec]
    split
    · simp [calculatorSpec]
    · split
      · simp [todoSpec]
      · split
        · simp [counterSpec]
        · simp [placeholderSpec]
  · intro h1 h2 h3 h4
    simp only [ruleSpec, h1, h2, h3, h4]
    simp

/-- Concrete failing LLM run: one partial token, then an exception. -/
def failingRun : LLMRun := ⟨["\x7b\"ti"], .error ()⟩

/-- Witness for C6 at a concrete failing run and unmatched request. -/
theorem fallback_total_on_upstream_failure_witness :
    failingRun.outcome = .error () ∧
    ((generate_ui_stream true failingRun "make me a spreadsheet").getLast? =
        some (.spec (ruleSpec "make me a spreadsheet")) ∧
      (ruleSpec "make me a spreadsheet").components ≠ [] ∧
      (pyIn "calculator" (pyLower "make me a spreadsheet") = false →
        pyIn "todo" (pyLower "make me a spreadsheet") = false →
        pyIn "task" (pyLower "make me a spreadsheet") = false →
        pyIn "counter" (pyLower "make me a spreadsheet") = false →
        ruleSpec "make me a spreadsheet" = placeholderSpec "make me a spreadsheet")) :=
  ⟨rfl, fallback_total_on_upstream_failure failingRun "make me a spreadsheet" rfl⟩

/-- Claim C4 (what the code actually does): when the upstream LLM fails
partway through a stream, the caller-visible token stream contains zero
`RESET` tokens and exactly one `GENERATION_START` (the initial one — no fresh
start is signalled, because `generate_ui_stream` never yields the reset item
the server's dead reset branch waits for), while the stream still terminates
with `COMPLETE`. -/
theorem stream_failure_emits_no_reset (llm : LLMRun) (request : String)
    (hfail : llm.outcome = .error ()) :
    (streamUI request (generate_ui_stream true llm request)).countP
      (fun t => t.type == .reset) = 0 ∧
    (streamUI request (generate_ui_stream true llm request)).countP
      (fun t => t.type == .generationStart) = 1 ∧
    (streamUI request (generate_ui_stream true llm request)).getLast? =
      some ⟨.complete, ""⟩ := by
  have hitems : generate_ui_stream true llm request =
      llm.chunks.map .tok ++ ruleItems request := by
    simp only [generate_ui_stream, hfail, if_pos]
  have hnores : (llm.chunks.map StreamItem.tok ++ ruleItems request).all
      (fun i => !itemIsReset i) = true := by
    rw [List.all_append]
    refine Bool.and_eq_true _ _ |>.mpr ⟨?_, rfl⟩
    refine List.all_eq_true.mpr ?_
    intro i hi
    obtain ⟨s, _, rfl⟩ := List.mem_map.mp hi
    rfl
  have hspec : (streamUIGo "" none
      (llm.chunks.map StreamItem.tok ++ ruleItems request)).2.2 =
      some (ruleSpec request) := by
    have : llm.chunks.map StreamItem.tok ++ ruleItems request =
        (llm.chunks.map StreamItem.tok ++ [.tok (dumpsSpec (ruleSpec request))]) ++
          [.spec (ruleSpec request)] := by
      simp [ruleItems]
    rw [this]
    exact streamUIGo_spec_of_last _ _ "" none
  have halltok : (streamUIGo "" none
      (llm.chunks.map StreamItem.tok ++ ruleItems request)).1.all
      (fun t => t.type == .token) = true :=
    streamUIGo_all_token _ "" none hnores
  rw [hitems, streamUI]
  simp only [hspec]
  set out := (streamUIGo "" none
    (llm.chunks.map StreamItem.tok ++ ruleItems request)).1 with hout
  set buf := (streamUIGo "" none
    (llm.chunks.map StreamItem.tok ++ ruleItems request)).2.1 with hbuf
  have hflush : ∀ ty : UITokenType, ty ≠ .token →
      (if buf == "" then ([] : List UIToken) else [⟨.token, buf⟩]).countP
        (fun t => t.type == ty) = 0 := by
    intro ty hty
    by_cases hb : (buf == "") = true
    · rw [if_pos hb]; rfl
    · rw [if_neg hb]
      simp only [List.countP_cons, List.countP_nil]
      have : ((UIToken.mk .token buf).type == ty) = false := by
        simp [beq_iff_eq]
        exact fun he => hty he.symm
      rw [this]
      rfl
  refine ⟨?_, ?_, ?_⟩
  · simp only [List.countP_append]
    rw [countP_eq_zero_of_all_token out .reset (by simp) halltok,
      hflush .reset (by simp)]
    rfl
  · simp only [List.countP_append]
    rw [countP_eq_zero_of_all_token out .generationStart (by simp) halltok,
      hflush .generationStart (by simp)]
    rfl
  · rw [show ([⟨.generationStart, "Analyzing request..."⟩,
        ⟨.thought, "Analyzing request: " ++ request⟩] : List UIToken) ++ out ++
        (if buf == "" then ([] : List UIToken) else [⟨.token, buf⟩]) ++
        [⟨.thought, "Identified " ++
            toString (ruleSpec request).components.length ++ " components"⟩,
          ⟨.complete, ""⟩] =
        (([⟨.generationStart, "Analyzing request..."⟩,
          ⟨.thought, "Analyzing request: " ++ request⟩] : List UIToken) ++ out ++
          (if buf == "" then ([] : List UIToken) else [⟨.token, buf⟩])) ++
        [⟨.thought, "Identified " ++
            toString (ruleSpec request).components.length ++ " components"⟩,
          ⟨.complete, ""⟩] by simp]
    exact getLast?_append_pair _ _ _

/-- Witness for C4's code-evaluation theorem at a concrete failing run. -/
theorem stream_failure_emits_no_reset_witness :
    failingRun.outcome = .error () ∧
    ((streamUI "calc please" (generate_ui_stream true failingRun "calc please")).countP
        (fun t => t.type == .reset) = 0 ∧
      (streamUI "calc please" (generate_ui_stream true failingRun "calc please")).countP
        (fun t => t.type == .generationStart) = 1 ∧
      (streamUI "calc please" (generate_ui_stream true failingRun "calc please")).getLast? =
        some ⟨.complete, ""⟩) :=
  ⟨rfl, stream_failure_emits_no_reset failingRun "calc please" rfl⟩

/-! ## JSON extraction/repair chain — `src/ai-service/src/core/json.py` -/

/-- Python whitespace for `str.strip()`. -/
def isPySpace (c : Char) : Bool :=
  c == ' ' || c == '\t' || c == '\n' || c == '\r' || c == '\x0b' || c == '\x0c'

/-- Python `str.strip()`. -/
def pyStrip (s : String) : String :=
  String.mk (((s.data.dropWhile isPySpace).reverse.dropWhile isPySpace).reverse)

/-- Index of the first occurrence of `sub` in a character list
(Python `str.find`, `None` for `-1`). -/
def findSubIdx (sub : List Char) : List Char → Option Nat
  | [] => if startsWithL [] sub then some 0 else none
  | h :: rest =>
    if startsWithL (h :: rest) sub then some 0
    else (findSubIdx sub rest).map (· + 1)

/-- Python `hay.find(sub)`. -/
def pyFindStr (hay sub : String) : Option Nat := findSubIdx sub.data hay.data

/-- Python `hay.find(sub, start)`. -/
def pyFindFrom (hay sub : String) (start : Nat) : Option Nat :=
  (findSubIdx sub.data (hay.data.drop start)).map (· + start)

/-- Index of the last occurrence of a character (Python `str.rfind` on a
one-character needle). -/
def rfindChar (ch : Char) : List Char → Option Nat
  | [] => none
  | h :: rest =>
    match rfindChar ch rest with
    | some i => some (i + 1)
    | none => if h == ch then some 0 else none

/-- Python slice `s[a:b]`. -/
def sliceStr (s : String) (a b : Nat) : String :=
  String.mk ((s.data.drop a).take (b - a))

/-- `extract_json_boundaries`: strip a markdown code fence if present, then
locate the span from the first opening brace to the last closing brace;
`none` when either brace is absent. -/
def extract_json_boundaries (text : String) : Option (String × Nat × Nat) :=
  let working :=
    if pyIn "```" text then
      let startMarker :=
        if pyIn "```json" text then (pyFindStr text "```json").getD 0 + 7
        else (pyFindStr text "```").getD 0 + 3
      match pyFindFrom text "```" startMarker with
      | some endMarker => pyStrip (sliceStr text startMarker endMarker)
      | none => text
    else text
  match pyFindStr working "\x7b", rfindChar '\x7d' working.data with
  | some s, some e => some (working, s, e + 1)
  | _, _ => none

/-- The external JSON backends of `core/json.py`: `msgspec` and the stdlib
`json` module as parsers, `json_repair.repair_json` as the repairer, and the
import-availability flags.  These are third-party libraries, so they are
parameters of the embedding rather than translated code. -/
structure JsonBackends where
  msgspecDecode : String → Except String JVal
  jsonLoads : String → Except String JVal
  repairJson : String → String
  hasMsgspec : Bool
  hasJsonRepair : Bool

/-- `core.json.parse`: extract boundaries, then try msgspec (only when
`strict`), then `json.loads`, then — only when the `repair` parameter is set
and `json_repair` is importable — repair followed by a final `json.loads`. -/
def parseJson (B : JsonBackends) (text : String) (strict repair : Bool) :
    Except String JVal :=
  let text := pyStrip text
  match extract_json_boundaries text with
  | none => .error "No JSON object found in text"
  | some (extracted, s, e) =>
    let jsonStr := sliceStr extracted s e
    let msgspecResult : Option (Except String JVal) :=
      if B.hasMsgspec && strict then
        match B.msgspecDecode jsonStr with
        | .ok r =>
          match r with
          | .obj _ => some (.ok r)
          | _ => some (.error "Expected dict")
        | .error e => if strict && !repair then some (.error ("Invalid JSON: " ++ e)) else none
      else none
    match msgspecResult with
    | some r => r
    | none =>
      match B.jsonLoads jsonStr with
      | .ok r =>
        match r with
        | .obj _ => .ok r
        | _ => .error "Expected dict"
      | .error e =>
        if !repair || !B.hasJsonRepair then .error ("JSON decode failed: " ++ e)
        else
          match B.jsonLoads (B.repairJson jsonStr) with
          | .ok r =>
            match r with
            | .obj _ => .ok r
            | _ => .error "Expected dict"
          | .error e2 => .error ("JSON repair failed: " ++ e2)

/-- `core.json.extract_json`: calls `parse(text, strict=not repair)`.  The
`repair` keyword of `parse` is not forwarded, so it keeps its default
`False`. -/
def extract_json (B : JsonBackends) (text : String) (repair : Bool) :
    Except String JVal :=
  parseJson B text (!repair) false

/-- Toy backends for evaluating the chain: the lenient parser accepts only
the repaired text, rejecting the trailing-comma original, and the repairer
fixes exactly that. -/
def toyBackends : JsonBackends :=
  ⟨fun s => if s == "\x7b\"a\": 1\x7d" then .ok (.obj [("a", .num 1)]) else .error "msgspec",
   fun s => if s == "\x7b\"a\": 1\x7d" then .ok (.obj [("a", .num 1)]) else .error "trailing comma",
   fun _ => "\x7b\"a\": 1\x7d",
   true, true⟩

/-- Claim C3 (what the code actually does): on input where only the lenient
parse fails, `extract_json` with repair enabled raises the terminal parse
error without ever attempting the repair tier — even though repairing and
re-parsing would succeed, and even though `parse` invoked with its `repair`
parameter actually set would succeed.  The strict fast tier is also skipped,
because `extract_json` passes `strict=not repair = False`. -/
theorem extract_json_skips_repair :
    extract_json toyBackends "\x7b\"a\": 1,\x7d" true =
      .error "JSON decode failed: trailing comma" ∧
    toyBackends.jsonLoads (toyBackends.repairJson "\x7b\"a\": 1,\x7d") =
      .ok (.obj [("a", .num 1)]) ∧
    parseJson toyBackends "\x7b\"a\": 1,\x7d" false true =
      .ok (.obj [("a", .num 1)]) :=
  ⟨rfl, rfl, rfl⟩

/-! ## Validator — `src/ai-service/src/core/validate.py` -/

/-- `MAX_UI_SPEC_SIZE = 512 * 1024` bytes. -/
def MAX_UI_SPEC_SIZE : Nat := 512 * 1024

/-- Modelled from the spec: `validate_json_size` measures `sys.getsizeof(data)`
— for a CPython compact-ASCII string that is a 49-byte object header plus one
byte per character, and the validator's input is `json.dumps` output, which is
ASCII under the default `ensure_ascii=True`. -/
def getsizeof (s : String) : Nat := 49 + s.length

/-- `validate.validate_json_size`: error iff the measured size exceeds the
ceiling. -/
def validate_json_size (data : String) (maxSize : Nat) (name : String) :
    Except String Unit :=
  if maxSize < getsizeof data then
    .error (name ++ " size " ++ toString (getsizeof data) ++
      " bytes exceeds maximum " ++ toString maxSize ++ " bytes")
  else .ok ()

mutual
/-- `validate.validate_json_depth`: reject once the running depth exceeds
`max_depth`, recursing one level deeper into dict values and list items. -/
def validateDepth (o : JVal) (maxDepth currentDepth : Nat) : Except String Unit :=
  if maxDepth < currentDepth then
    .error ("JSON nesting depth " ++ toString currentDepth ++
      " exceeds maximum " ++ toString maxDepth)
  else
    match o with
    | .obj fs => validateDepthFields fs maxDepth currentDepth
    | .arr xs => validateDepthItems xs maxDepth currentDepth
    | _ => .ok ()

def validateDepthFields (fs : List (String × JVal)) (maxDepth currentDepth : Nat) :
    Except String Unit :=
  match fs with
  | [] => .ok ()
  | (_, v) :: rest =>
    match validateDepth v maxDepth (currentDepth + 1) with
    | .error e => .error e
    | .ok () => validateDepthFields rest maxDepth currentDepth

def validateDepthItems (xs : List JVal) (maxDepth currentDepth : Nat) :
    Except String Unit :=
  match xs with
  | [] => .ok ()
  | v :: rest =>
    match validateDepth v maxDepth (currentDepth + 1) with
    | .error e => .error e
    | .ok () => validateDepthItems rest maxDepth currentDepth
end

/-- Structural tail of `BlueprintValidator.validate`: the `title` /
`components` checks.  A non-dict `spec_dict` is a `TypeError` in Python
(`"title" not in spec_dict`), modelled as an error. -/
def validateStructure (specDict : JVal) : Except String Unit :=
  match specDict with
  | .obj fs =>
    if (objGet fs "title").isNone then
      .error "UI spec missing required title field"
    else if (objGet fs "components").isNone then
      .error "UI spec missing required components field"
    else
      match objGet fs "components" with
      | some (.arr _) => .ok ()
      | _ => .error "UI spec components must be a list"
  | _ => .error "TypeError: argument is not a dict"

/-- `BlueprintValidator.validate`: size check first, then depth, then the
structural checks. -/
def validateSpec (specDict : JVal) (specJson : String) : Except String Unit :=
  match validate_json_size specJson MAX_UI_SPEC_SIZE "UI spec" with
  | .error e => .error e
  | .ok () =>
    match validateDepth specDict 20 0 with
    | .error e => .error e
    | .ok () => validateStructure specDict

/-- Claim C7: validation never succeeds on a serialized specification larger
than the configured ceiling — whenever the JSON string exceeds
`MAX_UI_SPEC_SIZE` bytes, `BlueprintValidator.validate` rejects it with a
`ValidationError` (the size error fires before any other check, for any
`spec_dict`). -/
theorem validator_rejects_oversized (specDict : JVal) (specJson : String)
    (h : MAX_UI_SPEC_SIZE < specJson.length) :
    validateSpec specDict specJson =
      .error ("UI spec size " ++ toString (getsizeof specJson) ++
        " bytes exceeds maximum " ++ toString MAX_UI_SPEC_SIZE ++ " bytes") := by
  have hsz : MAX_UI_SPEC_SIZE < getsizeof specJson := by
    rw [getsizeof]
    omega
  rw [validateSpec, validate_json_size]
  rw [if_pos hsz]
  rfl

/-- Witness for C7 at a 524289-character string. -/
theorem validator_rejects_oversized_witness :
    MAX_UI_SPEC_SIZE < (String.mk (List.replicate 524289 'a')).length ∧
    validateSpec (JVal.obj []) (String.mk (List.replicate 524289 'a')) =
      .error ("UI spec size " ++
        toString (getsizeof (String.mk (List.replicate 524289 'a'))) ++
        " bytes exceeds maximum " ++ toString MAX_UI_SPEC_SIZE ++ " bytes") :=
  ⟨by
      rw [show (String.mk (List.replicate 524289 'a')).length =
        (List.replicate 524289 'a').length from rfl, List.length_replicate]
      norm_num [MAX_UI_SPEC_SIZE],
    validator_rejects_oversized (JVal.obj []) (String.mk (List.replicate 524289 'a'))
      (by
        rw [show (String.mk (List.replicate 524289 'a')).length =
          (List.replicate 524289 'a').length from rfl, List.length_replicate]
        norm_num [MAX_UI_SPEC_SIZE])⟩

/-! ## Blueprint compiler — `src/ai-service/src/blueprint/parser.py`
(`BlueprintParser`)

The `_id_counter` instance state is threaded explicitly; recursion is fueled
(each recursive call consumes one unit), with exhaustion reported as Python's
`RecursionError` — the embedded inputs all run within any sufficient fuel. -/

/-- Python `str(x)` as used in the id f-string.  The `str()` of a list or
dict value is not reproduced (such a value as a component `type` occurs in no
claim input and affects only the generated id text). -/
def pyStrOf : JVal → String
  | .str s => s
  | .num n => toString n
  | .bool b => cond b "True" "False"
  | .null => "None"
  | .arr _ => "<list>"
  | .obj _ => "<dict>"

/-- Python `value == "some string"` between a JSON value and a string. -/
def jvalEqStr (v : JVal) (s : String) : Bool :=
  match v with
  | .str t => t == s
  | _ => false

/-- Python `key.startswith("@")`. -/
def pyStartsWithAt (k : String) : Bool :=
  match k.data with
  | c :: _ => c == '@'
  | [] => false

/-- Python `key.split("#", 1)`: the part before the first `#`, and the rest
after it when a `#` is present. -/
def pySplitHash (s : String) : String × Option String :=
  match s.data.dropWhile (· != '#') with
  | [] => (String.mk (s.data.takeWhile (· != '#')), none)
  | _ :: tail => (String.mk (s.data.takeWhile (· != '#')), some (String.mk tail))

/-- Python iteration `for x in v` over a JSON value: list items, string
characters, or dict keys; other values raise `TypeError`. -/
def pyIterate : JVal → Except String (List JVal)
  | .arr xs => .ok xs
  | .str s => .ok (s.data.map (fun c => .str (String.mk [c])))
  | .obj fs => .ok (fs.map (fun p => .str p.1))
  | .null => .error "TypeError: NoneType is not iterable"
  | .bool _ => .error "TypeError: bool is not iterable"
  | .num _ => .error "TypeError: int is not iterable"

/-- Layout/semantic shortcut rewriting of `_expand_explicit_component`
(lines 261–270): `row`/`col` become a `container` with an injected `layout`
prop, the semantic names become a `container` with a `role` prop and default
vertical layout.  Mutating `props` requires it to be a dict (`TypeError`
otherwise); other types pass through unchanged. -/
def applyShortcuts (compTypeV propsV : JVal) : Except String (JVal × JVal) :=
  if jvalEqStr compTypeV "row" then
    match propsV with
    | .obj fs =>
      .ok (.str "container", .obj (objSet fs "layout" (objGetD fs "layout" (.str "horizontal"))))
    | _ => .error "TypeError: props is not a dict"
  else if jvalEqStr compTypeV "col" then
    match propsV with
    | .obj fs =>
      .ok (.str "container", .obj (objSet fs "layout" (objGetD fs "layout" (.str "vertical"))))
    | _ => .error "TypeError: props is not a dict"
  else if (jvalEqStr compTypeV "sidebar" || jvalEqStr compTypeV "main" ||
      jvalEqStr compTypeV "editor" || jvalEqStr compTypeV "header" ||
      jvalEqStr compTypeV "footer" || jvalEqStr compTypeV "content" ||
      jvalEqStr compTypeV "section") then
    match propsV with
    | .obj fs =>
      .ok (.str "container",
        .obj (objSet (objSet fs "role" compTypeV) "layout"
          (objGetD (objSet fs "role" compTypeV) "layout" (.str "vertical"))))
    | _ => .error "TypeError: props is not a dict"
  else .ok (compTypeV, propsV)

mutual
/-- `BlueprintParser._expand_component`: a bare string becomes a `text`
component with a synthetic id (counter incremented); a dict with a `"type"`
key is expanded as an explicit component; otherwise the first key of a
compact `"type#id"` dict is converted to explicit form (with the broken
`comp_id == parts[0]` counter guard kept verbatim); anything else yields
`None`. -/
def expandComponent (fuel : Nat) (comp : JVal) (n : Nat) :
    Except String (Option JVal × Nat) :=
  match fuel with
  | 0 => .error "RecursionError"
  | fuel + 1 =>
    match comp with
    | .str s =>
      .ok (some (.obj [("type", .str "text"), ("id", .str ("text-" ++ toString n)),
        ("props", .obj [("content", .str s)])]), n + 1)
    | .obj fields =>
      if (objGet fields "type").isSome then
        match expandExplicit fuel fields n with
        | .error e => .error e
        | .ok (j, n') => .ok (some j, n')
      else
        match fields with
        | [] => .ok (none, n)
        | (key, propsV) :: _ => expandCompact fuel key propsV n
    | _ => .ok (none, n)

termination_by structural fuel

/-- Compact-form branch of `_expand_component` (lines 206–241): split the
first key on `#`, synthesize `"{type}-{counter}"` when no id part is present
(the guard `comp_id == parts[0]` — kept verbatim — is meant to bump the
counter then, but a synthesized `"{type}-{n}"` never equals `parts[0]`),
extract `@`-prefixed keys as events and `children`, and expand the resulting
explicit component. -/
def expandCompact (fuel : Nat) (key : String) (propsV : JVal) (n : Nat) :
    Except String (Option JVal × Nat) :=
  match fuel with
  | 0 => .error "RecursionError"
  | fuel + 1 =>
    let props := match propsV with
      | .obj fs => fs
      | _ => []
    let compType := (pySplitHash key).1
    let compId := (pySplitHash key).2.getD (compType ++ "-" ++ toString n)
    let n1 := if compId == compType then n + 1 else n
    let explicitProps :=
      props.filter (fun p => !(pyStartsWithAt p.1) && p.1 != "children")
    let events := (props.filter (fun p => pyStartsWithAt p.1)).map
      (fun p => (String.mk p.1.data.tail, p.2))
    let childrenData := (objGet props "children").getD .null
    let explicitComp :=
      [("type", .str compType), ("id", .str compId), ("props", .obj explicitProps)]
      ++ (if events.isEmpty then [] else [("on_event", .obj events)])
      ++ (if pyTruthy childrenData then [("children", childrenData)] else [])
    match expandExplicit fuel explicitComp n1 with
    | .error e => .error e
    | .ok (j, n') => .ok (some j, n')
termination_by structural fuel

/-- `BlueprintParser._expand_explicit_component`: synthesize an id from the
type and counter when the given id is falsy (incrementing the counter), apply
the layout shortcuts, recursively expand truthy `children`, and assemble the
result dict, attaching `on_event`/`children` only when truthy/non-empty. -/
def expandExplicit (fuel : Nat) (fields : List (String × JVal)) (n : Nat) :
    Except String (JVal × Nat) :=
  match fuel with
  | 0 => .error "RecursionError"
  | fuel + 1 =>
    let compTypeV := objGetD fields "type" (.str "container")
    let compIdV := objGetD fields "id" .null
    let compId := if pyTruthy compIdV then compIdV
      else .str (pyStrOf compTypeV ++ "-" ++ toString n)
    let n1 := if pyTruthy compIdV then n else n + 1
    let propsV := objGetD fields "props" (.obj [])
    let events := objGetD fields "on_event" (.obj [])
    let childrenData := objGetD fields "children" (.arr [])
    match applyShortcuts compTypeV propsV with
    | .error e => .error e
    | .ok (compTypeF, propsF) =>
      match expandChildren fuel childrenData n1 with
      | .error e => .error e
      | .ok (childrenOpt, n2) =>
        .ok (.obj ([("type", compTypeF), ("id", compId), ("props", propsF)]
          ++ (if pyTruthy events then [("on_event", events)] else [])
          ++ (match childrenOpt with
            | some cs => if cs.isEmpty then [] else [("children", .arr cs)]
            | none => [])), n2)

termination_by structural fuel

/-- Children handling of `_expand_explicit_component` (lines 272–275):
`children = None; if children_data: children = self._expand_components(children_data)`. -/
def expandChildren (fuel : Nat) (childrenData : JVal) (n : Nat) :
    Except String (Option (List JVal) × Nat) :=
  match fuel with
  | 0 => .error "RecursionError"
  | fuel + 1 =>
    if pyTruthy childrenData then
      match expandComponentsVal fuel childrenData n with
      | .error e => .error e
      | .ok (cs, n2) => .ok (some cs, n2)
    else .ok (none, n)
termination_by structural fuel

/-- `BlueprintParser._expand_components` applied to an arbitrary value (the
source iterates whatever `children` holds). -/
def expandComponentsVal (fuel : Nat) (v : JVal) (n : Nat) :
    Except String (List JVal × Nat) :=
  match fuel with
  | 0 => .error "RecursionError"
  | fuel + 1 =>
    match pyIterate v with
    | .error e => .error e
    | .ok xs => expandComponentsList fuel xs n

termination_by structural fuel

/-- Loop of `_expand_components`: expand each entry, appending the result only
when it is truthy (`if expanded:`). -/
def expandComponentsList (fuel : Nat) (cs : List JVal) (n : Nat) :
    Except String (List JVal × Nat) :=
  match fuel with
  | 0 => .error "RecursionError"
  | fuel + 1 =>
    match cs with
    | [] => .ok ([], n)
    | c :: rest =>
      match expandComponent fuel c n with
      | .error e => .error e
      | .ok (opt, n1) =>
        match expandComponentsList fuel rest n1 with
        | .error e => .error e
        | .ok (outs, n2) =>
          match opt with
          | some j => if pyTruthy j then .ok (j :: outs, n2) else .ok (outs, n2)
          | none => .ok (outs, n2)
termination_by structural fuel

end

/-- `BlueprintParser._expand_services` inner dict loop for one service
entry. -/
def expandServiceItems : List (String × JVal) → List JVal
  | [] => []
  | (key, value) :: rest =>
    let entry :=
      if jvalEqStr value "*" || (match value with | .null => true | _ => false) then
        [JVal.str key]
      else match value with
        | .arr tools => [.obj [("service", .str key), ("tools", .arr tools)]]
        | .obj cfg =>
          let tools := objGetD cfg "tools" (.str "*")
          if jvalEqStr tools "*" then [.str key]
          else [.obj [("service", .str key), ("tools", tools),
            ("config", .obj (cfg.filter (fun p => p.1 != "tools")))]]
        | _ => [.str key]
    entry ++ expandServiceItems rest

/-- `BlueprintParser._expand_services`: bare strings pass through, dicts are
expanded per key, anything else is skipped. -/
def expandServices : List JVal → List JVal
  | [] => []
  | svc :: rest =>
    (match svc with
      | .str s => [JVal.str s]
      | .obj items => expandServiceItems items
      | _ => []) ++ expandServices rest

/-- `BlueprintParser._expand_lifecycle`: falsy input yields an empty dict; a
string action becomes a one-element list, a list stays, anything else becomes
an empty list.  Iterating `.items()` of a truthy non-dict raises. -/
def expandLifecycle (v : JVal) : Except String JVal :=
  if !(pyTruthy v) then .ok (.obj [])
  else match v with
    | .obj fs => .ok (.obj (fs.map (fun p => (p.1,
        match p.2 with
        | .str s => JVal.arr [.str s]
        | .arr xs => JVal.arr xs
        | _ => JVal.arr []))))
    | _ => .error "AttributeError: items"

/-- `BlueprintParser._expand_ui`: falsy input yields the default app shell;
otherwise build the app dict with defaults, expanded lifecycle hooks and
expanded components. -/
def expandUi (fuel : Nat) (ui : JVal) : Except String JVal :=
  if !(pyTruthy ui) then
    .ok (.obj [("type", .str "app"), ("title", .str "Untitled"),
      ("layout", .str "vertical"), ("components", .arr [])])
  else match ui with
    | .obj fs =>
      match expandLifecycle (objGetD fs "lifecycle" (.obj [])) with
      | .error e => .error e
      | .ok hooks =>
        match expandComponentsVal fuel (objGetD fs "components" (.arr [])) 0 with
        | .error e => .error e
        | .ok (comps, _) =>
          .ok (.obj [("type", .str "app"),
            ("title", objGetD fs "title" (.str "Untitled")),
            ("layout", objGetD fs "layout" (.str "vertical")),
            ("lifecycle_hooks", hooks),
            ("components", .arr comps)])
    | _ => .error "AttributeError: get"

/-- `BlueprintParser.parse` after the `extract_json` step (lines 39–78): the
format and required-field checks, then the package dict.  `now` stands for
the `datetime.utcnow()` timestamp.  The `templates` section is read into
`self.templates` (line 61) but no later step consults it. -/
def parseBp (fuel : Nat) (bp : JVal) (now : String) : Except String JVal :=
  if !(pyTruthy bp) then .error "Invalid Blueprint format: expected JSON object"
  else match bp with
    | .obj fs =>
      if (objGet fs "app").isNone then .error "Invalid Blueprint: missing app section"
      else match objGetD fs "app" .null with
        | .obj afs =>
          if !(pyTruthy (objGetD afs "id" .null)) then .error "app.id is required"
          else if !(pyTruthy (objGetD afs "name" .null)) then .error "app.name is required"
          else
            match pyIterate (objGetD fs "services" (.arr [])) with
            | .error e => .error e
            | .ok svcs =>
              match expandUi fuel (objGetD fs "ui" (.obj [])) with
              | .error e => .error e
              | .ok uiSpec =>
                .ok (.obj [("id", objGetD afs "id" .null),
                  ("name", objGetD afs "name" .null),
                  ("description", objGetD afs "description" (.str "")),
                  ("icon", objGetD afs "icon" .null),
                  ("category", objGetD afs "category" .null),
                  ("version", objGetD afs "version" (.str "1.0.0")),
                  ("author", objGetD afs "author" (.str "user")),
                  ("created_at", .str now), ("updated_at", .str now),
                  ("services", .arr (expandServices svcs)),
                  ("permissions", objGetD afs "permissions" (.arr [.str "STANDARD"])),
                  ("tags", objGetD afs "tags" (.arr [])),
                  ("ui_spec", uiSpec),
                  ("config", objGetD fs "config" (.obj []))])
        | _ => .error "AttributeError: get"
    | _ => .error "Invalid Blueprint format: expected JSON object"

/-- `BlueprintParser.parse` end to end: `extract_json` with repair enabled
(parse errors wrapped as `ValidationError("Invalid JSON: ...")`), then the
dict-level compilation. -/
def parseBlueprint (B : JsonBackends) (fuel : Nat) (content : String)
    (now : String) : Except String JVal :=
  match extract_json B content true with
  | .error e => .error ("Invalid JSON: " ++ e)
  | .ok bp => parseBp fuel bp now

/-- The `components` list of a compiled package's `ui_spec`. -/
def uiComponentsOf (pkg : JVal) : List JVal :=
  match pkg with
  | .obj fs =>
    match objGet fs "ui_spec" with
    | some (.obj ufs) =>
      match objGet ufs "components" with
      | some (.arr cs) => cs
      | _ => []
    | _ => []
  | _ => []

/-- The `id` field of a compiled component dict. -/
def idOf (c : JVal) : Option JVal :=
  match c with
  | .obj fs => objGet fs "id"
  | _ => none

/-- The `props` field of a compiled component dict. -/
def propsOf (c : JVal) : Option JVal :=
  match c with
  | .obj fs => objGet fs "props"
  | _ => none

/-- Blueprint whose two compact components omit their ids. -/
def dupIdsBp : JVal :=
  .obj [("app", .obj [("id", .str "t"), ("name", .str "T")]),
    ("services", .arr []),
    ("ui", .obj [("title", .str "T"),
      ("components", .arr [.obj [("button", .obj [])], .obj [("button", .obj [])]])])]

/-- Counterexample to claim C1: compiling a blueprint with two compact
`"button"` components, both omitting an id, assigns the id `button-0` to
both — the compact branch never increments the counter (its guard
`comp_id == parts[0]` compares `"button-0"` with `"button"`), so the
synthetic ids are not unique within the compile call. -/
theorem parser_duplicate_synthetic_ids_counterexample :
    (parseBp 100 dupIdsBp "2026-01-01T00:00:00Z").map
        (fun pkg => (uiComponentsOf pkg).map idOf) =
      .ok [some (.str "button-0"), some (.str "button-0")] := rfl

/-- The blueprint of the repository's own template test
(`tests/unit/test_blueprint.py::test_blueprint_parser_templates`), already
JSON-parsed. -/
def templateBp : JVal :=
  .obj [("app", .obj [("id", .str "test"), ("name", .str "Test")]),
    ("services", .arr []),
    ("templates", .obj [("primary-btn",
      .obj [("variant", .str "primary"), ("size", .str "large")])]),
    ("ui", .obj [("title", .str "Test"),
      ("components", .arr [.obj [("button#save",
        .obj [("$template", .str "primary-btn"), ("text", .str "Save")])]])])]

/-- Claim C2 (what the code actually does): compiling the repository's own
template test blueprint leaves the `$template` reference as a literal prop
and merges nothing — the compiled props are exactly
`{"$template": "primary-btn", "text": "Save"}`, without the template's
`variant`/`size` fields the claim (and the repo's test) expect.  `parse`
stores `bp["templates"]` in `self.templates` but no expansion step reads
it. -/
theorem parser_never_merges_templates :
    (parseBp 100 templateBp "2026-01-01T00:00:00Z").map
        (fun pkg => (uiComponentsOf pkg).map (fun c => (idOf c, propsOf c))) =
      .ok [(some (.str "save"),
        some (.obj [("$template", .str "primary-btn"), ("text", .str "Save")]))] := rfl

/-- Entries of a components list that produce an output component: strings
and non-empty objects. -/
def keepComponent : JVal → Bool
  | .str _ => true
  | .obj fs => !fs.isEmpty
  | _ => false

/-- Counterexample to claim C10: an empty JSON object is a JSON object, yet
`_expand_component` falls through its key loop and returns `None`, so the
entry is dropped — the output has no component for it. -/
theorem expand_components_drops_empty_object_counterexample :
    expandComponentsList 10 [JVal.obj []] 0 = .ok ([], 0) := rfl

theorem expandExplicit_truthy (fuel : Nat) (fields : List (String × JVal)) (n : Nat)
    (out : JVal) (n' : Nat) (h : expandExplicit fuel fields n = .ok (out, n')) :
    pyTruthy out = true := by
  match fuel with
  | 0 => simp [expandExplicit] at h
  | fuel + 1 =>
    rw [expandExplicit] at h
    split at h
    · exact absurd h (by simp)
    · split at h
      · exact absurd h (by simp)
      · injection h with h1
        injection h1 with h2 h3
        subst h2
        rfl

theorem wrapExplicit_ok {fuel : Nat} {X : List (String × JVal)} {nX : Nat}
    {opt : Option JVal} {n' : Nat}
    (h : (match expandExplicit fuel X nX with
      | .error e => (.error e : Except String (Option JVal × Nat))
      | .ok (j, n2) => .ok (some j, n2)) = .ok (opt, n')) :
    ∃ j, opt = some j ∧ pyTruthy j = true := by
  split at h
  · exact absurd h (by simp)
  · rename_i j n2 heq
    injection h with h1
    injection h1 with h2 h3
    exact ⟨j, h2.symm, expandExplicit_truthy fuel X nX j n2 heq⟩

theorem expandComponent_keep (fuel : Nat) (c : JVal) (n : Nat)
    (opt : Option JVal) (n' : Nat)
    (h : expandComponent fuel c n = .ok (opt, n')) (hk : keepComponent c = true) :
    ∃ j, opt = some j ∧ pyTruthy j = true := by
  match fuel with
  | 0 => simp [expandComponent] at h
  | fuel + 1 =>
    match c with
    | .str s =>
      rw [expandComponent] at h
      injection h with h1
      injection h1 with h2 h3
      exact ⟨_, h2.symm, rfl⟩
    | .obj fields =>
      simp only [expandComponent] at h
      by_cases hty : (objGet fields "type").isSome = true
      · rw [if_pos hty] at h
        exact wrapExplicit_ok h
      · rw [if_neg hty] at h
        match fields with
        | [] => simp [keepComponent] at hk
        | (key, propsV) :: restf =>
          cases fuel with
          | zero => exact absurd h (by simp [expandCompact])
          | succ fuel => exact wrapExplicit_ok h
    | .null => simp [keepComponent] at hk
    | .bool b => simp [keepComponent] at hk
    | .num m => simp [keepComponent] at hk
    | .arr xs => simp [keepComponent] at hk

theorem expandComponent_drop (fuel : Nat) (c : JVal) (n : Nat)
    (hk : keepComponent c = false) :
    expandComponent (fuel + 1) c n = .ok (none, n) := by
  match c with
  | .str s => simp [keepComponent] at hk
  | .obj fields =>
    match fields with
    | [] => rfl
    | f :: fs => simp [keepComponent] at hk
  | .null => rfl
  | .bool b => rfl
  | .num m => rfl
  | .arr xs => rfl

/-- Claim C10 (amended): expansion of a components list is total over
arbitrary non-string, non-object entries — and also over *empty* objects —
all of which raise no error and are silently dropped without touching the id
counter; every string and every non-empty object entry that expands without
error contributes exactly one component, in input order. -/
theorem expand_components_total_per_entry (fuel : Nat) :
    (∀ (cs : List JVal) (n : Nat) (res : List JVal) (n' : Nat),
      expandComponentsList fuel cs n = .ok (res, n') →
      res.length = (cs.filter keepComponent).length) ∧
    (∀ (c : JVal) (n : Nat), keepComponent c = false →
      expandComponent (fuel + 1) c n = .ok (none, n)) := by
  constructor
  · induction fuel with
    | zero => intro cs n res n' h; simp [expandComponentsList] at h
    | succ fuel ih =>
      intro cs n res n' h
      match cs with
      | [] =>
        rw [expandComponentsList] at h
        injection h with h1
        injection h1 with h2 h3
        subst h2
        rfl
      | c :: rest =>
        rw [expandComponentsList] at h
        split at h
        · exact absurd h (by simp)
        · rename_i opt n1 heq1
          split at h
          · exact absurd h (by simp)
          · rename_i outs n2 heq2
            by_cases hk : keepComponent c = true
            · obtain ⟨j, hj, htr⟩ := expandComponent_keep fuel c n opt n1 heq1 hk
              subst hj
              have h' : Except.ok (j :: outs, n2) =
                  (Except.ok (res, n') : Except String (List JVal × Nat)) := by
                rw [← h]
                simp [htr]
              injection h' with h1
              injection h1 with h2 h3
              subst h2
              rw [List.filter_cons_of_pos hk]
              simp only [List.length_cons]
              rw [ih rest n1 outs n2 heq2]
            · rw [Bool.not_eq_true] at hk
              have : expandComponent fuel c n = .ok (none, n) := by
                match fuel with
                | 0 => simp [expandComponent] at heq1
                | fuel + 1 => exact expandComponent_drop fuel c n hk
              rw [this] at heq1
              injection heq1 with hq
              injection hq with hq1 hq2
              subst hq1
              injection h with h1
              injection h1 with h2 h3
              subst h2
              rw [List.filter_cons_of_neg (by simp [hk])]
              exact ih rest n1 outs n2 heq2
  · intro c n hk
    exact expandComponent_drop fuel c n hk

theorem takeWhile_eq_self_of_all {α : Type} (p : α → Bool) (l : List α)
    (h : l.all p = true) : l.takeWhile p = l := by
  induction l with
  | nil => rfl
  | cons a rest ih =>
    simp only [List.all_cons, Bool.and_eq_true] at h
    simp [List.takeWhile_cons, h.1, ih h.2]

theorem dropWhile_eq_nil_of_all {α : Type} (p : α → Bool) (l : List α)
    (h : l.all p = true) : l.dropWhile p = [] := by
  induction l with
  | nil => rfl
  | cons a rest ih =>
    simp only [List.all_cons, Bool.and_eq_true] at h
    simp [List.dropWhile_cons, h.1, ih h.2]

theorem takeWhile_append_stop {α : Type} (p : α → Bool) (l1 : List α) (x : α)
    (l2 : List α) (h : l1.all p = true) (hx : p x = false) :
    (l1 ++ x :: l2).takeWhile p = l1 := by
  induction l1 with
  | nil => simp [List.takeWhile_cons, hx]
  | cons a rest ih =>
    simp only [List.all_cons, Bool.and_eq_true] at h
    simp [List.takeWhile_cons, h.1, ih h.2]

theorem dropWhile_append_stop {α : Type} (p : α → Bool) (l1 : List α) (x : α)
    (l2 : List α) (h : l1.all p = true) (hx : p x = false) :
    (l1 ++ x :: l2).dropWhile p = x :: l2 := by
  induction l1 with
  | nil => simp [List.dropWhile_cons, hx]
  | cons a rest ih =>
    simp only [List.all_cons, Bool.and_eq_true] at h
    simp [List.dropWhile_cons, h.1, ih h.2]

theorem pySplitHash_no_hash (key : String) (h : key.data.all (· != '#') = true) :
    pySplitHash key = (key, none) := by
  rw [pySplitHash]
  rw [dropWhile_eq_nil_of_all _ _ h, takeWhile_eq_self_of_all _ _ h]

theorem string_data_append (a b : String) : (a ++ b).data = a.data ++ b.data := rfl

theorem pySplitHash_with_hash (t idp : String) (h : t.data.all (· != '#') = true) :
    pySplitHash (t ++ "#" ++ idp) = (t, some idp) := by
  rw [pySplitHash]
  have hd : (t ++ "#" ++ idp).data = t.data ++ '#' :: idp.data := by
    rw [string_data_append, string_data_append]
    simp
  rw [hd, dropWhile_append_stop (· != '#') t.data '#' idp.data h (by decide),
    takeWhile_append_stop (· != '#') t.data '#' idp.data h (by decide)]

theorem append_dash_ne (a b : String) : a ++ "-" ++ b ≠ a := by
  intro h
  have hl := congrArg String.length h
  rw [String.length_append, String.length_append] at hl
  have h1 : ("-" : String).length = 1 := rfl
  omega

theorem append_dash_ne_empty (a b : String) : a ++ "-" ++ b ≠ "" := by
  intro h
  have hl := congrArg String.length h
  rw [String.length_append, String.length_append] at hl
  have h1 : ("-" : String).length = 1 := rfl
  have h2 : ("" : String).length = 0 := rfl
  omega

theorem applyShortcuts_obj (tv : JVal) (fs : List (String × JVal)) :
    ∃ t' fs', applyShortcuts tv (.obj fs) = .ok (t', .obj fs') := by
  rw [applyShortcuts]
  split_ifs <;> exact ⟨_, _, rfl⟩

theorem expandChildren_falsy (fuel : Nat) (v : JVal) (n : Nat)
    (h : pyTruthy v = false) : expandChildren (fuel + 1) v n = .ok (none, n) := by
  rw [expandChildren, if_neg (by rw [h]; exact Bool.false_ne_true)]

/-- Evaluation of `_expand_explicit_component` when `children` is falsy and
the shortcut rewriting succeeds. -/
theorem expandExplicit_no_children (fuel : Nat) (fields : List (String × JVal))
    (n : Nat) (t' p' : JVal)
    (hsc : applyShortcuts (objGetD fields "type" (.str "container"))
      (objGetD fields "props" (.obj [])) = .ok (t', p'))
    (hch : pyTruthy (objGetD fields "children" (.arr [])) = false) :
    expandExplicit (fuel + 2) fields n =
      .ok (.obj ([("type", t'),
        ("id", if pyTruthy (objGetD fields "id" .null) = true then objGetD fields "id" .null
          else .str (pyStrOf (objGetD fields "type" (.str "container")) ++ "-" ++ toString n)),
        ("props", p')]
        ++ (if pyTruthy (objGetD fields "on_event" (.obj [])) = true then
            [("on_event", objGetD fields "on_event" (.obj []))] else [])),
        if pyTruthy (objGetD fields "id" .null) = true then n else n + 1) := by
  rw [expandExplicit]
  rw [hsc, expandChildren_falsy fuel _ _ hch]
  simp

/-- Evaluation of the compact branch when `children` is falsy: the id is the
`#`-part when present and `"{type}-{counter}"` otherwise, and the counter is
bumped only when the verbatim guard `comp_id == parts[0]` fires. -/
theorem expandCompact_no_children (fuel : Nat) (key ct cid : String)
    (ip : Option String) (props : List (String × JVal)) (n : Nat)
    (hsp : pySplitHash key = (ct, ip))
    (hcid : ip.getD (ct ++ "-" ++ toString n) = cid)
    (hch : pyTruthy ((objGet props "children").getD .null) = false)
    (hid : cid ≠ "") :
    (expandCompact (fuel + 3) key (.obj props) n).map (fun r => (r.1.map idOf, r.2)) =
      .ok (some (some (.str cid)), if cid == ct then n + 1 else n) := by
  simp only [expandCompact, hsp, Prod.fst, Prod.snd, hcid]
  rw [if_neg (c := pyTruthy ((objGet props "children").getD JVal.null) = true)
    (by rw [hch]; exact Bool.false_ne_true)]
  have hcidT : pyTruthy (JVal.str cid) = true := by
    simp [pyTruthy, bne_iff_ne]
    exact hid
  by_cases hev : ((props.filter (fun p => pyStartsWithAt p.1)).map
      (fun p => (String.mk p.1.data.tail, p.2))).isEmpty = true
  · rw [if_pos hev]
    obtain ⟨t', fs', happ⟩ := applyShortcuts_obj
      (.str ct) (props.filter (fun p => !(pyStartsWithAt p.1) && p.1 != "children"))
    have happ2 : applyShortcuts
        (objGetD ([("type", JVal.str ct), ("id", JVal.str cid),
          ("props", JVal.obj (props.filter (fun p => !(pyStartsWithAt p.1) && p.1 != "children")))]
          ++ [] ++ []) "type" (JVal.str "container"))
        (objGetD ([("type", JVal.str ct), ("id", JVal.str cid),
          ("props", JVal.obj (props.filter (fun p => !(pyStartsWithAt p.1) && p.1 != "children")))]
          ++ [] ++ []) "props" (JVal.obj [])) = Except.ok (t', JVal.obj fs') := happ
    rw [expandExplicit_no_children fuel _ _ t' (.obj fs') happ2 rfl]
    have hidT : pyTruthy (objGetD
        ([("type", JVal.str ct), ("id", JVal.str cid),
          ("props", JVal.obj (props.filter (fun p => !(pyStartsWithAt p.1) && p.1 != "children")))]
          ++ [] ++ []) "id" JVal.null) = true := hcidT
    simp only [hidT, if_pos]
    rfl
  · rw [if_neg hev]
    obtain ⟨t', fs', happ⟩ := applyShortcuts_obj
      (.str ct) (props.filter (fun p => !(pyStartsWithAt p.1) && p.1 != "children"))
    have happ2 : applyShortcuts
        (objGetD ([("type", JVal.str ct), ("id", JVal.str cid),
          ("props", JVal.obj (props.filter (fun p => !(pyStartsWithAt p.1) && p.1 != "children")))]
          ++ [("on_event", JVal.obj ((props.filter (fun p => pyStartsWithAt p.1)).map
              (fun p => (String.mk p.1.data.tail, p.2))))] ++ []) "type" (JVal.str "container"))
        (objGetD ([("type", JVal.str ct), ("id", JVal.str cid),
          ("props", JVal.obj (props.filter (fun p => !(pyStartsWithAt p.1) && p.1 != "children")))]
          ++ [("on_event", JVal.obj ((props.filter (fun p => pyStartsWithAt p.1)).map
              (fun p => (String.mk p.1.data.tail, p.2))))] ++ []) "props" (JVal.obj [])) =
        Except.ok (t', JVal.obj fs') := happ
    rw [expandExplicit_no_children fuel _ _ t' (.obj fs') happ2 rfl]
    have hidT : pyTruthy (objGetD
        ([("type", JVal.str ct), ("id", JVal.str cid),
          ("props", JVal.obj (props.filter (fun p => !(pyStartsWithAt p.1) && p.1 != "children")))]
          ++ [("on_event", JVal.obj ((props.filter (fun p => pyStartsWithAt p.1)).map
              (fun p => (String.mk p.1.data.tail, p.2))))] ++ []) "id" JVal.null) = true := hcidT
    simp only [hidT, if_pos]
    rfl

theorem expandComponent_single_compact (fuel : Nat) (key : String) (pv : JVal)
    (n : Nat) (hneq : key ≠ "type") :
    expandComponent (fuel + 1) (.obj [(key, pv)]) n = expandCompact fuel key pv n := by
  have hobj : objGet [(key, pv)] "type" = none := by
    simp [objGet, hneq]
  simp [expandComponent, hobj]

/-- Claim C1 (amended): (a) an explicit component's truthy `id` is kept
verbatim; (b) a compact `"type#id"` key's non-empty id part is kept verbatim,
and the counter is bumped exactly when the verbatim guard
`comp_id == parts[0]` fires (i.e. for a key of the form `"x#x"`); (c) a bare
string becomes a `text` component with id `text-<counter>` and the counter is
incremented; (d) an explicit component with a falsy id gets
`"{type}-{counter}"` and the counter is incremented; but (e) a compact key
without a `#` id part gets `"{key}-{counter}"` WITHOUT incrementing the
counter — so compact synthetic ids repeat within a compile call (see the
counterexample) and are not unique.  Parts (b), (d), (e) are stated for
components without truthy children; children only expand further components
and never rewrite an already-assigned id. -/
theorem parser_id_assignment (fuel : Nat) :
    (∀ (fields : List (String × JVal)) (n : Nat) (out : JVal) (n' : Nat),
      pyTruthy (objGetD fields "id" .null) = true →
      expandExplicit (fuel + 1) fields n = .ok (out, n') →
      idOf out = some (objGetD fields "id" .null)) ∧
    (∀ (t idp : String) (props : List (String × JVal)) (n : Nat),
      t.data.all (· != '#') = true →
      idp ≠ "" →
      t ++ "#" ++ idp ≠ "type" →
      pyTruthy ((objGet props "children").getD .null) = false →
      (expandComponent (fuel + 4) (.obj [(t ++ "#" ++ idp, .obj props)]) n).map
          (fun r => (r.1.map idOf, r.2)) =
        .ok (some (some (.str idp)), if idp == t then n + 1 else n)) ∧
    (∀ (s : String) (n : Nat),
      expandComponent (fuel + 1) (.str s) n =
        .ok (some (.obj [("type", .str "text"), ("id", .str ("text-" ++ toString n)),
          ("props", .obj [("content", .str s)])]), n + 1)) ∧
    (∀ (fields : List (String × JVal)) (n : Nat) (t' p' : JVal),
      pyTruthy (objGetD fields "id" .null) = false →
      applyShortcuts (objGetD fields "type" (.str "container"))
        (objGetD fields "props" (.obj [])) = .ok (t', p') →
      pyTruthy (objGetD fields "children" (.arr [])) = false →
      (expandExplicit (fuel + 2) fields n).map (fun r => (idOf r.1, r.2)) =
        .ok (some (.str (pyStrOf (objGetD fields "type" (.str "container")) ++
          "-" ++ toString n)), n + 1)) ∧
    (∀ (key : String) (props : List (String × JVal)) (n : Nat),
      key.data.all (· != '#') = true →
      key ≠ "type" →
      pyTruthy ((objGet props "children").getD .null) = false →
      (expandComponent (fuel + 4) (.obj [(key, .obj props)]) n).map
          (fun r => (r.1.map idOf, r.2)) =
        .ok (some (some (.str (key ++ "-" ++ toString n))), n)) := by
  refine ⟨?_, ?_, ?_, ?_, ?_⟩
  · intro fields n out n' hid h
    rw [expandExplicit] at h
    split at h
    · exact absurd h (by simp)
    · split at h
      · exact absurd h (by simp)
      · injection h with h1
        injection h1 with h2 h3
        subst h2
        simp [idOf, objGet, hid]
  · intro t idp props n hall hne hnety hch
    rw [show fuel + 4 = (fuel + 3) + 1 from rfl,
      expandComponent_single_compact (fuel + 3) _ _ _ hnety]
    exact expandCompact_no_children fuel (t ++ "#" ++ idp) t idp (some idp) props n
      (pySplitHash_with_hash t idp hall) rfl hch hne
  · intro s n
    rfl
  · intro fields n t' p' hid hsc hch
    rw [expandExplicit_no_children fuel fields n t' p' hsc hch]
    simp [idOf, objGet, hid, Except.map]
  · intro key props n hall hneq hch
    rw [show fuel + 4 = (fuel + 3) + 1 from rfl,
      expandComponent_single_compact (fuel + 3) _ _ _ hneq]
    have hguard : ((key ++ "-" ++ toString n) == key) = false := by
      rw [beq_eq_false_iff_ne]
      exact append_dash_ne key (toString n)
    rw [expandCompact_no_children fuel key key (key ++ "-" ++ toString n) none props n
      (pySplitHash_no_hash key hall) rfl hch (append_dash_ne_empty key (toString n))]
    simp [hguard]

/-- Explicit fields with a verbatim id, for the C1 witness. -/
def idFieldsW : List (String × JVal) := [("type", JVal.str "button"), ("id", JVal.str "myid")]

/-- Expected expansion of `idFieldsW`, for the C1 witness. -/
def idOutW : JVal :=
  .obj [("type", .str "button"), ("id", .str "myid"), ("props", .obj [])]

/-- Witness for C1 (amended), exercising all five parts on concrete inputs. -/
theorem parser_id_assignment_witness :
    (pyTruthy (objGetD idFieldsW "id" JVal.null) = true ∧
      expandExplicit 3 idFieldsW 5 = .ok (idOutW, 5) ∧
      idOf idOutW = some (objGetD idFieldsW "id" JVal.null)) ∧
    (("button".data.all (· != '#') = true) ∧ ("save" : String) ≠ "" ∧
      ("button" ++ "#" ++ "save") ≠ "type" ∧
      pyTruthy ((objGet [("text", JVal.str "Save")] "children").getD .null) = false ∧
      (expandComponent 6 (.obj [("button" ++ "#" ++ "save",
          .obj [("text", JVal.str "Save")])]) 0).map (fun r => (r.1.map idOf, r.2)) =
        .ok (some (some (.str "save")), if ("save" : String) == "button" then 0 + 1 else 0)) ∧
    (expandComponent 3 (.str "hi") 3 =
      .ok (some (.obj [("type", .str "text"), ("id", .str ("text-" ++ toString 3)),
        ("props", .obj [("content", .str "hi")])]), 3 + 1)) ∧
    (pyTruthy (objGetD [("type", JVal.str "input")] "id" JVal.null) = false ∧
      applyShortcuts (objGetD [("type", JVal.str "input")] "type" (.str "container"))
        (objGetD [("type", JVal.str "input")] "props" (.obj [])) =
        .ok (.str "input", .obj []) ∧
      pyTruthy (objGetD [("type", JVal.str "input")] "children" (.arr [])) = false ∧
      (expandExplicit 4 [("type", JVal.str "input")] 2).map (fun r => (idOf r.1, r.2)) =
        .ok (some (.str (pyStrOf (objGetD [("type", JVal.str "input")] "type"
          (.str "container")) ++ "-" ++ toString 2)), 2 + 1)) ∧
    (("row".data.all (· != '#') = true) ∧ ("row" : String) ≠ "type" ∧
      pyTruthy ((objGet ([] : List (String × JVal)) "children").getD .null) = false ∧
      (expandComponent 6 (.obj [("row", .obj [])]) 7).map
          (fun r => (r.1.map idOf, r.2)) =
        .ok (some (some (.str ("row" ++ "-" ++ toString 7))), 7)) :=
  ⟨⟨rfl, rfl, (parser_id_assignment 2).1 idFieldsW 5 idOutW 5 rfl rfl⟩,
    ⟨by decide, by decide, by decide, rfl,
      (parser_id_assignment 2).2.1 "button" "save" [("text", JVal.str "Save")] 0
        (by decide) (by decide) (by decide) rfl⟩,
    (parser_id_assignment 2).2.2.1 "hi" 3,
    ⟨rfl, rfl, rfl,
      (parser_id_assignment 2).2.2.2.1 [("type", JVal.str "input")] 2
        (.str "input") (.obj []) rfl rfl rfl⟩,
    ⟨by decide, by decide, rfl,
      (parser_id_assignment 2).2.2.2.2 "row" [] 7 (by decide) (by decide) rfl⟩⟩

/-- Witness for C10 (amended) on a mixed entry list and a dropped number. -/
theorem expand_components_total_per_entry_witness :
    (expandComponentsList 10 [JVal.str "a", JVal.num 3, JVal.obj []] 0 =
      .ok ([JVal.obj [("type", .str "text"), ("id", .str "text-0"),
        ("props", .obj [("content", .str "a")])]], 1) ∧
      ([JVal.obj [("type", JVal.str "text"), ("id", JVal.str "text-0"),
        ("props", JVal.obj [("content", JVal.str "a")])]].length =
        (([JVal.str "a", JVal.num 3, JVal.obj []].filter keepComponent)).length)) ∧
    (keepComponent (JVal.num 7) = false ∧
      expandComponent 11 (JVal.num 7) 5 = .ok (none, 5)) :=
  ⟨⟨rfl, (expand_components_total_per_entry 10).1
      [JVal.str "a", JVal.num 3, JVal.obj []] 0 _ 1 rfl⟩,
    ⟨rfl, (expand_components_total_per_entry 10).2 (JVal.num 7) 5 rfl⟩⟩

end AOS
